import Mathlib

/-!
Shallow embedding of the market-data aggregation layer of the
`chiaker/80_rubley_rossii` repository (`analytics/utils.py` and the stock
branch of `asset_catalog` in `analytics/views.py`).

Numbers are modelled as rationals (`ℚ`); JSON payloads become structures with
`Option` fields (`none` = JSON null / missing key); every network request is
an explicit `Except Unit payload` oracle passed in as data, so that "request
raised an exception" is the `.error` case and the functions are total (the
Python functions catch every exception at the places modelled here).
Python dicts that keep insertion order are association lists; `setKey` is
dict assignment (overwrite in place), `List.lookup` is dict lookup.
-/

namespace MarketData

/-- Dict assignment `m[k] = v`: replace the first binding of `k` in place,
or append a new binding when `k` is absent (Python dict semantics). -/
def setKey {β : Type} : List (String × β) → String → β → List (String × β)
  | [], k, v => [(k, v)]
  | (a, b) :: t, k, v => if a = k then (k, v) :: t else (a, b) :: setKey t k v

/-- Python `str.upper()` on the ASCII ticker strings used here. -/
def pyUpper (s : String) : String := String.mk (s.data.map Char.toUpper)

/-- Python `str.lower()` on the ASCII ticker strings used here. -/
def pyLower (s : String) : String := String.mk (s.data.map Char.toLower)

/-- The ASCII whitespace stripped by Python `str.strip()` (the symbols in this
repository are ASCII tickers, so the further Unicode spaces never occur). -/
def isPySpace (c : Char) : Bool :=
  c = ' ' || c = '\t' || c = '\n' || c = '\r' || c = '\x0b' || c = '\x0c'

/-- Python `str.strip()`. -/
def pyStrip (s : String) : String :=
  String.mk (((s.data.dropWhile isPySpace).reverse.dropWhile isPySpace).reverse)

/-! ## SparklineRenderer: `sparkline_svg_from_prices` (utils.py 356-405)

The renderer is embedded as a function into an abstract drawing description
(dimensions, polyline points and stroke color) instead of the serialized SVG
string: the `.2f` textual formatting is injective on the computed
coordinates, so equality of drawings is equality of the emitted SVG.
The source first drops `None` entries (`x is not None`); on a numeric series
(`List ℚ`) that filter is the identity, and the second empty-check of the
source (line 366-367) coincides with the first (line 361-363), so the
embedding keeps a single empty case. -/

/-- Abstract result of `sparkline_svg_from_prices`: `body = none` is the empty
placeholder SVG; otherwise the polyline points and the chosen stroke color. -/
structure Sparkline where
  width : ℚ
  height : ℚ
  body : Option (List (ℚ × ℚ) × String)
deriving DecidableEq

def Sparkline.color? (s : Sparkline) : Option String := s.body.map (·.2)

def Sparkline.points? (s : Sparkline) : Option (List (ℚ × ℚ)) := s.body.map (·.1)

def upColor : String := "#1ca01c"

def downColor : String := "#e53935"

def flatColor : String := "#888"

/-- The renderer `sparkline_svg_from_prices(prices, width, height, stroke)`
(utils.py 356-405). -/
def sparkline_svg_from_prices (prices : List ℚ) (width height : ℚ)
    (stroke : String) : Sparkline :=
  match prices with
  | [] => ⟨width, height, none⟩
  | p0 :: rest =>
    let pts := p0 :: rest
    let mn := rest.foldl min p0
    let mx := rest.foldl max p0
    let span := if mx ≠ mn then mx - mn else 1
    -- if only one data point, duplicate it (utils.py 374-376)
    let pts2 := if pts.length = 1 then [p0, p0] else pts
    let n := pts2.length
    let stepX := width / ((max 1 (n - 1) : ℕ) : ℚ)
    let points := pts2.enum.map (fun ip =>
      ((ip.1 : ℚ) * stepX, height - ((ip.2 - mn) / span) * height))
    let lastP := pts2.getLastD p0
    -- color based on change (utils.py 387-397); the try/except cannot fire
    -- over ℚ, and every branch reassigns `color`, so `stroke` is unused
    let change := if p0 ≠ 0 then (lastP - p0) / p0 else 0
    let color := if change > 0 then upColor
      else if change < 0 then downColor else flatColor
    ⟨width, height, some (points, color)⟩

/-! ## QuoteAggregator, stock side: `fetch_current_stock_prices` (utils.py 65-119)

The Finnhub `/quote` response (`c` current price, `pc` previous close,
`t` timestamp; `h`/`l`/`o` are never read). The per-symbol request is an
explicit oracle `net : String → Except Unit FinnhubQuoteResp`: `.error` is any
exception raised by `requests.get`/`raise_for_status`/`.json()`, all caught by
the per-symbol `except` at line 115. -/

structure FinnhubQuoteResp where
  c : Option ℚ
  pc : Option ℚ
  t : Option ℤ
deriving DecidableEq

/-- One entry of the result mapping of `fetch_current_stock_prices`. -/
structure StockQuoteData where
  price : ℚ
  percent_change : Option ℚ
  timestamp : Option ℤ
  prev_close : Option ℚ
deriving DecidableEq

/-- The per-symbol body of the loop in `fetch_current_stock_prices`
(utils.py 91-114): skip when `c` is None, else compute the entry; the percent
change is computed only when `pc` is neither None nor 0. -/
def finnhub_quote_entry (payload : FinnhubQuoteResp) : Option StockQuoteData :=
  match payload.c with
  | none => none
  | some price =>
    let percent_change : Option ℚ :=
      match payload.pc with
      | some pc => if pc ≠ 0 then some ((price - pc) / pc * 100) else none
      | none => none
    some ⟨price, percent_change, payload.t, payload.pc⟩

/-- The comprehension `[s.upper() for s in set(symbols) if s]` (utils.py 78).  Python iterates
the deduplicated set in arbitrary order; duplicates would write identical
entries into the result dict, so the resulting mapping is invariant under
deduplication and order, and the embedding processes the given list
directly. -/
def stockQuerySymbols (symbols : List String) : List String :=
  (symbols.filter (fun s => s ≠ "")).map pyUpper

/-- The aggregator `fetch_current_stock_prices(symbols)` (utils.py 65-119).  `apiKey` is the
`FINNHUB_API_KEY`/`FINNHUB_KEY` environment lookup. -/
def fetch_current_stock_prices (apiKey : Option String)
    (net : String → Except Unit FinnhubQuoteResp)
    (symbols : List String) : List (String × StockQuoteData) :=
  match apiKey with
  | none => []
  | some _ =>
    (stockQuerySymbols symbols).foldl (fun result sym =>
      match net sym with
      | .error _ => result
      | .ok payload =>
        match finnhub_quote_entry payload with
        | none => result
        | some entry => setKey result sym entry) []

/-- What one symbol contributes: its own request outcome passed through the
per-symbol processing. -/
def stock_quote_result (net : String → Except Unit FinnhubQuoteResp)
    (sym : String) : Option StockQuoteData :=
  match net sym with
  | .ok payload => finnhub_quote_entry payload
  | .error _ => none

/-! ## SymbolResolver: the CoinGecko id cache (utils.py 123-157, 248-284) -/

/-- The table `_COINGECKO_MANUAL_OVERRIDES` (utils.py 126-130). -/
def coingecko_manual_overrides : List (String × String) :=
  [("btc", "bitcoin"), ("eth", "ethereum"), ("usdt", "tether")]

/-- One item of the CoinGecko `/coins/list` payload. -/
structure CoinListItem where
  symbol : Option String
  id : Option String

/-- The process-wide resolver state: `_coingecko_map_cache` and
`_coingecko_map_cached_at`. -/
structure CoingeckoMapState where
  cache : List (String × String)
  cachedAt : Option ℚ
deriving DecidableEq

/-- The map assembly inside `_ensure_coingecko_map` (utils.py 143-153):
index the catalog by lower-cased symbol, first entry wins, then merge the
manual overrides (manual wins). -/
def build_coingecko_map (items : List CoinListItem) : List (String × String) :=
  let m := items.foldl (fun m it =>
    match it.symbol, it.id with
    | some sym, some cid =>
      let key := pyLower sym
      if (List.lookup key m).isSome then m else m ++ [(key, cid)]
    | _, _ => m) []
  coingecko_manual_overrides.foldl (fun m kv => setKey m kv.1 kv.2) m

/-- The rebuild step `_ensure_coingecko_map()` (utils.py 133-157).  `now` is `time.time()`;
`catalog` is the `/coins/list` request outcome (`.error` = any raised network
or decoding exception, caught at line 156).  Returns the new state and the
number of catalog fetches attempted.  The freshness test mirrors Python
truthiness: a `cachedAt` of `None` or `0.0` and an empty cache both force a
rebuild. -/
def ensure_coingecko_map (st : CoingeckoMapState) (now : ℚ)
    (catalog : Except Unit (List CoinListItem)) : CoingeckoMapState × ℕ :=
  if (match st.cachedAt with
      | some t => decide (t ≠ 0) && decide (now - t < 3600)
      | none => false) && !st.cache.isEmpty then
    (st, 0)
  else
    match catalog with
    | .error _ => (st, 1)
    | .ok items => (⟨build_coingecko_map items, some now⟩, 1)

/-- The id lookup in the crypto branch of `fetch_24h_series`
(utils.py 250-253): read the bulk map, then re-apply the manual override
(override wins over any cached value). -/
def coingecko_lookup_id (cache : List (String × String)) (symbol : String) :
    Option String :=
  let key := pyLower symbol
  let cid := List.lookup key cache
  match List.lookup key coingecko_manual_overrides with
  | some v => some v
  | none => cid

/-- One candidate of the CoinGecko `/search` payload (`symbol` defaults to
`""` via `c.get('symbol', '')`). -/
structure SearchCoin where
  symbol : String
  id : Option String

/-- The candidate selection of both search-fallback blocks
(utils.py 266-273 and 320-327): prefer the first candidate whose symbol
matches case-insensitively; if there is none (or it carries no id), take the
first candidate's id. -/
def coingecko_search_pick (coins : List SearchCoin) (symbol : String) :
    Option String :=
  let exact := (coins.find? (fun c => pyLower c.symbol == pyLower symbol)).bind (·.id)
  match exact with
  | some cid => some cid
  | none => coins.head?.bind (·.id)

/-! ## SeriesReconstructor: `fetch_24h_series` (utils.py 160-353) -/

/-- Finnhub `/stock/candle` payload: flag `s`, message `error`, closes `c`,
timestamps `t` (`error` and `t` are only logged). -/
structure CandleResp where
  s : Option String
  error : Option String
  c : List (Option ℚ)
  t : List ℚ

/-- The network environment of one `fetch_24h_series` call: each request the
function can issue, as data.  `search1` is the pre-chart search fallback
(utils.py 260-282), `search2` the post-chart one (utils.py 314-345); `chart`
is keyed by the CoinGecko id it is called with. -/
structure MarketNet where
  finnhubKey : Option String
  candle : Except Unit CandleResp
  catalog : Except Unit (List CoinListItem)
  search1 : Except Unit (List SearchCoin)
  search2 : Except Unit (List SearchCoin)
  chart : String → Except Unit (List (ℚ × ℚ))

/-- Result of `fetch_24h_series`: the series, the resolver state afterwards,
the number of outbound HTTP requests issued, and how many of those were
catalog-list fetches (cache rebuild attempts). -/
structure SeriesFetchOut where
  series : List ℚ
  state : CoingeckoMapState
  calls : ℕ
  rebuilds : ℕ
deriving DecidableEq

/-- The second search fallback of the crypto branch (utils.py 313-347):
search, pick a candidate, re-attempt the market chart, and cache the id only
when that second attempt yields a non-empty series.  `base` is the number of
requests issued before this block. -/
def coingecko_search_retry (net : MarketNet) (st2 : CoingeckoMapState)
    (symbol : String) (base : ℕ) (reb : ℕ) : SeriesFetchOut :=
  match net.search2 with
  | .error _ => ⟨[], st2, base + 1, reb⟩
  | .ok coins =>
    match coingecko_search_pick coins symbol with
    | none => ⟨[], st2, base + 1, reb⟩
    | some cid2 =>
      match net.chart cid2 with
      | .error _ => ⟨[], st2, base + 2, reb⟩
      | .ok prices2 =>
        if prices2.isEmpty then ⟨[], st2, base + 2, reb⟩
        else ⟨prices2.map Prod.snd,
          ⟨setKey st2.cache (pyLower symbol) cid2, st2.cachedAt⟩, base + 2, reb⟩

/-- The crypto branch of `fetch_24h_series` (utils.py 247-351): ensure the
cache, look the id up (manual override re-applied), fall back to the search
endpoint on a miss (caching a hit immediately, utils.py 277), fetch the
market chart, and on an empty or failed chart run the second search
fallback. -/
def fetch_24h_series_crypto (net : MarketNet) (now : ℚ) (st : CoingeckoMapState)
    (symbol : String) : SeriesFetchOut :=
  let ens := ensure_coingecko_map st now net.catalog
  let st1 := ens.1
  let reb := ens.2
  let cid0 := coingecko_lookup_id st1.cache symbol
  -- pre-chart search fallback when the map misses (utils.py 258-282);
  -- a hit is cached into the bulk map immediately (line 277)
  let step1 : Option String × CoingeckoMapState × ℕ :=
    match cid0 with
    | some cid => (some cid, st1, 0)
    | none =>
      match net.search1 with
      | .error _ => (none, st1, 1)
      | .ok coins =>
        match coingecko_search_pick coins symbol with
        | some cid => (some cid,
            ⟨setKey st1.cache (pyLower symbol) cid, st1.cachedAt⟩, 1)
        | none => (none, st1, 1)
  match step1 with
  | (none, st2, extra) => ⟨[], st2, reb + extra, reb⟩
  | (some cid, st2, extra) =>
    match net.chart cid with
    | .ok prices =>
      if !prices.isEmpty then
        ⟨prices.map Prod.snd, st2, reb + extra + 1, reb⟩
      else coingecko_search_retry net st2 symbol (reb + extra + 1) reb
    | .error _ => coingecko_search_retry net st2 symbol (reb + extra + 1) reb

/-- The reconstructor `fetch_24h_series(symbol, asset_type, convert)`
(utils.py 160-353).
Every `except` of the source collapses into the `.error` case of the
corresponding oracle; the function is total, so no input can make it raise. -/
def fetch_24h_series (net : MarketNet) (now : ℚ) (st : CoingeckoMapState)
    (symbol assetType : String) : SeriesFetchOut :=
  let symbol := pyStrip symbol
  if symbol = "" then ⟨[], st, 0, 0⟩
  else if assetType = "STOCK" then
    match net.finnhubKey with
    | none => ⟨[], st, 0, 0⟩
    | some _ =>
      match net.candle with
      | .error _ => ⟨[], st, 1, 0⟩
      | .ok data =>
        if data.s ≠ some "ok" then ⟨[], st, 1, 0⟩
        else if data.c.isEmpty then ⟨[], st, 1, 0⟩
        else ⟨data.c.filterMap (fun x =>
            match x with
            | some v => if v ≠ 0 then some v else none
            | none => none), st, 1, 0⟩
  else if assetType = "CRYPTO" then fetch_24h_series_crypto net now st symbol
  else ⟨[], st, 0, 0⟩

/-! ## The stock-series fallback cascade of `asset_catalog` (views.py 298-384) -/

/-- Result of the cascade: the series handed to the renderer, whether the
persisted-history store was consulted (the `try` at views.py 307-326 was
entered), and whether the quote-interpolation stage ran (views.py 328-370). -/
structure CascadeOut where
  series : List ℚ
  dbQueried : Bool
  quoteStageRan : Bool
deriving DecidableEq

/-- The quote-interpolation stage (views.py 331-366): `price` and `pc` are
`pdata.get('price')` / `pdata.get('prev_close')`, `change24h` is
`a.change_24h` (the locally computed percent change, or None).  Both
interpolation branches of the source compute the same linear formula with
`progress = i / (num_points - 1)`, `num_points = 24`. -/
def quote_fallback_series (price pc change24h : Option ℚ) : List ℚ :=
  match price, pc with
  | some curr, some prev =>
    if prev ≠ 0 then
      if change24h ≠ none ∧ change24h ≠ some 0 then
        (List.range 24).map (fun (i : ℕ) =>
          let totalChange := curr - prev
          prev + totalChange * ((i : ℚ) / 23))
      else
        (List.range 24).map (fun (i : ℕ) => prev + (curr - prev) * ((i : ℚ) / 23))
    else List.replicate 24 curr
  | some curr, none => List.replicate 24 curr
  | none, _ => []

/-- The per-stock cascade of `asset_catalog` (views.py 298-370):
`apiSeries` is the value returned by `fetch_24h_series(ticker, STOCK)`
(used opaquely by the view), `db` the persisted-history query outcome
(`.ok closes`, oldest first; `.error` = the `except` at views.py 324), and
`pdata` the entry of `fetch_current_stock_prices` for this ticker (`none` =
the `{}` default at views.py 287). -/
def asset_catalog_stock_series (apiSeries : List ℚ) (db : Except Unit (List ℚ))
    (pdata : Option StockQuoteData) : CascadeOut :=
  let series1 := apiSeries
  let dbQueried := series1.isEmpty
  let series2 :=
    if series1.isEmpty then
      match db with
      | .ok hist => if !hist.isEmpty then hist else series1
      | .error _ => series1
    else series1
  let quoteRan := series2.isEmpty
  let series3 :=
    if series2.isEmpty then
      quote_fallback_series (pdata.map (·.price)) (pdata.bind (·.prev_close))
        (pdata.bind (·.percent_change))
    else series2
  ⟨series3, dbQueried, quoteRan⟩

/-! # Theorems -/

theorem lookup_setKey {β : Type} (m : List (String × β)) (k k' : String) (v : β) :
    List.lookup k (setKey m k' v) = if k = k' then some v else List.lookup k m := by
  induction m with
  | nil =>
    by_cases h : k = k'
    · simp [setKey, List.lookup, h]
    · have hb : (k == k') = false := by simp [h]
      simp [setKey, List.lookup, h, hb]
  | cons hd tl ih =>
    obtain ⟨a, b⟩ := hd
    by_cases hak : a = k'
    · subst hak
      by_cases h : k = a
      · simp [setKey, List.lookup, h]
      · have hb : (k == a) = false := by simp [h]
        simp [setKey, List.lookup, h, hb]
    · by_cases h : k = a
      · subst h
        have hb : (k == k) = true := by simp
        simp [setKey, List.lookup, hak, Ne.symm hak, hb]
      · have hb : (k == a) = false := by simp [h]
        simp [setKey, List.lookup, hak, h, hb, ih]

theorem ensure_coingecko_map_attempts_le (st : CoingeckoMapState) (now : ℚ)
    (catalog : Except Unit (List CoinListItem)) :
    (ensure_coingecko_map st now catalog).2 ≤ 1 := by
  unfold ensure_coingecko_map
  split
  · simp
  · cases catalog <;> simp

theorem coingecko_search_retry_rebuilds (net : MarketNet)
    (st2 : CoingeckoMapState) (symbol : String) (base reb : ℕ) :
    (coingecko_search_retry net st2 symbol base reb).rebuilds = reb := by
  unfold coingecko_search_retry
  cases h2 : net.search2 with
  | error e => rfl
  | ok coins =>
    dsimp only
    cases h3 : coingecko_search_pick coins symbol with
    | none => rfl
    | some cid2 =>
      dsimp only
      cases h4 : net.chart cid2 with
      | error e => rfl
      | ok prices2 => by_cases h : prices2.isEmpty <;> simp [h]

theorem fetch_24h_series_crypto_rebuilds (net : MarketNet) (now : ℚ)
    (st : CoingeckoMapState) (symbol : String) :
    (fetch_24h_series_crypto net now st symbol).rebuilds =
      (ensure_coingecko_map st now net.catalog).2 := by
  unfold fetch_24h_series_crypto
  cases hc : coingecko_lookup_id (ensure_coingecko_map st now net.catalog).1.cache
      symbol with
  | none =>
    cases h1 : net.search1 with
    | error e => simp [hc, h1]
    | ok coins =>
      cases h3 : coingecko_search_pick coins symbol with
      | none => simp [hc, h1, h3]
      | some cid =>
        cases h4 : net.chart cid with
        | error e => simp [hc, h1, h3, h4, coingecko_search_retry_rebuilds]
        | ok prices =>
          by_cases h : prices.isEmpty <;>
            simp [hc, h1, h3, h4, h, coingecko_search_retry_rebuilds]
  | some cid =>
    cases h4 : net.chart cid with
    | error e => simp [hc, h4, coingecko_search_retry_rebuilds]
    | ok prices =>
      by_cases h : prices.isEmpty <;>
        simp [hc, h4, h, coingecko_search_retry_rebuilds]

/-- C7: resolving "btc" always yields the manual-override id "bitcoin":
the lookup of the crypto path (utils.py 250-253) re-applies the manual
override over any cached bulk map, and the map rebuild itself
(utils.py 143-153) merges the overrides last, so they win at build time
too - for every cache state and every fetched catalog. -/
theorem resolve_btc_manual_override :
    (∀ cache : List (String × String),
        coingecko_lookup_id cache "btc" = some "bitcoin") ∧
    (∀ items : List CoinListItem,
        List.lookup "btc" (build_coingecko_map items) = some "bitcoin") := by
  constructor
  · intro cache
    rfl
  · intro items
    simp only [build_coingecko_map, coingecko_manual_overrides, List.foldl]
    rw [lookup_setKey, lookup_setKey, lookup_setKey]
    simp

/-- C8: a failed catalog fetch during a rebuild of the CoinGecko symbol map
leaves both the cached map and its timestamp untouched; on success the state
is either untouched (cache still fresh) or the fully assembled new map is
swapped in with the new timestamp; the rebuild attempts of one
`_ensure_coingecko_map` call, and of one whole crypto resolution path of
`fetch_24h_series`, never exceed one. -/
theorem coingecko_rebuild_failure_semantics :
    (∀ (st : CoingeckoMapState) (now : ℚ),
        (ensure_coingecko_map st now (Except.error ())).1 = st) ∧
    (∀ (st : CoingeckoMapState) (now : ℚ) (items : List CoinListItem),
        (ensure_coingecko_map st now (Except.ok items)).1 = st ∨
        (ensure_coingecko_map st now (Except.ok items)).1 =
          ⟨build_coingecko_map items, some now⟩) ∧
    (∀ (st : CoingeckoMapState) (now : ℚ)
        (catalog : Except Unit (List CoinListItem)),
        (ensure_coingecko_map st now catalog).2 ≤ 1) ∧
    (∀ (net : MarketNet) (now : ℚ) (st : CoingeckoMapState) (symbol : String),
        (fetch_24h_series net now st symbol "CRYPTO").rebuilds ≤ 1) := by
  refine ⟨?_, ?_, ensure_coingecko_map_attempts_le, ?_⟩
  · intro st now
    unfold ensure_coingecko_map
    split <;> rfl
  · intro st now items
    unfold ensure_coingecko_map
    split
    · exact Or.inl rfl
    · exact Or.inr rfl
  · intro net now st symbol
    unfold fetch_24h_series
    by_cases h1 : pyStrip symbol = ""
    · simp [h1]
    · simp only [h1, if_false]
      have hs : ("CRYPTO" : String) = "STOCK" ↔ False := by simp
      simp only [hs, if_false, if_true, eq_self_iff_true]
      rw [fetch_24h_series_crypto_rebuilds]
      exact ensure_coingecko_map_attempts_le st now net.catalog

/-- C10: `fetch_24h_series` on a symbol that is empty or all whitespace
returns the empty series with the resolver state untouched and zero outbound
requests; the same holds for any asset class other than STOCK and CRYPTO
(utils.py 167-169 and 353).  The function is total, so neither case can
raise. -/
theorem fetch_24h_series_guards :
    (∀ (net : MarketNet) (now : ℚ) (st : CoingeckoMapState)
        (symbol assetType : String), symbol.data.all isPySpace →
        fetch_24h_series net now st symbol assetType = ⟨[], st, 0, 0⟩) ∧
    (∀ (net : MarketNet) (now : ℚ) (st : CoingeckoMapState)
        (symbol assetType : String), assetType ≠ "STOCK" → assetType ≠ "CRYPTO" →
        fetch_24h_series net now st symbol assetType = ⟨[], st, 0, 0⟩) := by
  constructor
  · intro net now st symbol assetType hws
    have hstrip : pyStrip symbol = "" := by
      have hd : symbol.data.dropWhile isPySpace = [] :=
        List.dropWhile_eq_nil_iff.mpr (by
          intro x hx
          exact List.all_eq_true.mp hws x hx)
      simp [pyStrip, hd]
    unfold fetch_24h_series
    rw [if_pos hstrip]
  · intro net now st symbol assetType h1 h2
    unfold fetch_24h_series
    by_cases hs : pyStrip symbol = ""
    · rw [if_pos hs]
    · rw [if_neg hs, if_neg h1, if_neg h2]

/-- Witness for `fetch_24h_series_guards` at concrete inputs. -/
theorem fetch_24h_series_guards_witness :
    (fetch_24h_series ⟨none, .error (), .error (), .error (), .error (),
        fun _ => .error ()⟩ 0 ⟨[], none⟩ "  " "STOCK" = ⟨[], ⟨[], none⟩, 0, 0⟩) ∧
    (fetch_24h_series ⟨none, .error (), .error (), .error (), .error (),
        fun _ => .error ()⟩ 0 ⟨[], none⟩ "AAPL" "FUND" = ⟨[], ⟨[], none⟩, 0, 0⟩) :=
  ⟨fetch_24h_series_guards.1 _ 0 _ "  " "STOCK" (by decide),
   fetch_24h_series_guards.2 _ 0 _ "AAPL" "FUND" (by decide) (by decide)⟩

/-- C2: the quote-interpolation fallback stage.  With a present current price
and a previous close that is neither absent nor zero it emits 24 points
linearly interpolated by index from previous close to current price (both
source branches compute the same formula); with a present current price but
absent or zero previous close it emits 24 copies of the current price; and at
previous close 100, current price 110, computed change 10 the series has 24
points, is non-decreasing, starts at 100 and ends at 110. -/
theorem quote_fallback_interpolation :
    (∀ (curr prev : ℚ) (change : Option ℚ), prev ≠ 0 →
        quote_fallback_series (some curr) (some prev) change =
          (List.range 24).map (fun (i : ℕ) => prev + (curr - prev) * ((i : ℚ) / 23))) ∧
    (∀ (curr : ℚ) (change : Option ℚ),
        quote_fallback_series (some curr) none change = List.replicate 24 curr ∧
        quote_fallback_series (some curr) (some 0) change =
          List.replicate 24 curr) ∧
    ((quote_fallback_series (some 110) (some 100) (some 10)).length = 24 ∧
      List.Pairwise (· ≤ ·) (quote_fallback_series (some 110) (some 100) (some 10)) ∧
      (quote_fallback_series (some 110) (some 100) (some 10)).head? = some 100 ∧
      (quote_fallback_series (some 110) (some 100) (some 10)).getLast? =
        some 110) := by
  have hgen : ∀ (curr prev : ℚ) (change : Option ℚ), prev ≠ 0 →
      quote_fallback_series (some curr) (some prev) change =
        (List.range 24).map (fun (i : ℕ) => prev + (curr - prev) * ((i : ℚ) / 23)) := by
    intro curr prev change hp
    dsimp only [quote_fallback_series]
    rw [if_pos hp]
    split <;> rfl
  have hser : quote_fallback_series (some 110) (some 100) (some 10) =
      (List.range 24).map (fun (i : ℕ) => (100 : ℚ) + (110 - 100) * ((i : ℚ) / 23)) :=
    hgen 110 100 (some 10) (by norm_num)
  refine ⟨hgen, ?_, ?_, ?_, ?_, ?_⟩
  · intro curr change
    refine ⟨rfl, ?_⟩
    dsimp only [quote_fallback_series]
    rw [if_neg (by simp)]
  · rw [hser]
    simp
  · rw [hser, List.pairwise_map]
    refine (List.pairwise_lt_range 24).imp ?_
    intro a b hab
    have hq : (a : ℚ) ≤ (b : ℚ) := by exact_mod_cast hab.le
    have hdiv : (a : ℚ) / 23 ≤ (b : ℚ) / 23 := by linarith
    linarith
  · rw [hser, List.range_succ_eq_map]
    simp
  · rw [hser, List.getLast?_map, show (24 : ℕ) = 23 + 1 from rfl,
      List.range_succ]
    simp [List.getLast?_concat]

/-- Witness for `quote_fallback_interpolation` at previous close 100 and
current price 110. -/
theorem quote_fallback_interpolation_witness :
    quote_fallback_series (some 110) (some 100) (some 10) =
      (List.range 24).map (fun (i : ℕ) => 100 + (110 - 100) * ((i : ℚ) / 23)) :=
  quote_fallback_interpolation.1 110 100 (some 10) (by norm_num)

/-- A Finnhub oracle answering symbol AAPL with current price 0 and previous
close 100 (a quote the spec says must be discarded as "no data"). -/
def finnhub_net_zero_price : String → Except Unit FinnhubQuoteResp :=
  fun s => if s = "AAPL" then .ok ⟨some 0, some 100, none⟩ else .error ()

/-- C3, refuting evaluation: `fetch_current_stock_prices` does NOT drop a
quote whose current price is 0 (or negative) - utils.py 94 only skips
`c is None` - so the symbol is returned with price 0 and percent change
(0-100)/100*100 = -100, where the spec requires it to be omitted. -/
theorem fetch_stock_includes_zero_price :
    List.lookup "AAPL"
        (fetch_current_stock_prices (some "key") finnhub_net_zero_price
          ["AAPL"]) =
      some ⟨0, some (-100), none, some 100⟩ := by
  have h1 : stockQuerySymbols ["AAPL"] = ["AAPL"] := by decide
  unfold fetch_current_stock_prices
  rw [h1]
  norm_num [finnhub_net_zero_price, finnhub_quote_entry, setKey, List.lookup]

theorem fetch_stock_step_eq (net : String → Except Unit FinnhubQuoteResp)
    (acc : List (String × StockQuoteData)) (sym : String) :
    (match net sym with
      | .error _ => acc
      | .ok payload =>
        match finnhub_quote_entry payload with
        | none => acc
        | some entry => setKey acc sym entry) =
      (match stock_quote_result net sym with
        | none => acc
        | some entry => setKey acc sym entry) := by
  unfold stock_quote_result
  cases net sym with
  | error e => rfl
  | ok payload => cases finnhub_quote_entry payload <;> rfl

theorem lookup_stock_fold (net : String → Except Unit FinnhubQuoteResp)
    (l : List String) (acc : List (String × StockQuoteData)) (s : String) :
    List.lookup s (l.foldl (fun result sym =>
        match net sym with
        | .error _ => result
        | .ok payload =>
          match finnhub_quote_entry payload with
          | none => result
          | some entry => setKey result sym entry) acc) =
      if s ∈ l ∧ (stock_quote_result net s).isSome
      then stock_quote_result net s else List.lookup s acc := by
  induction l generalizing acc with
  | nil => simp
  | cons a t ih =>
    rw [List.foldl_cons, ih, fetch_stock_step_eq]
    by_cases hst : s ∈ t ∧ (stock_quote_result net s).isSome
    · rw [if_pos hst, if_pos ⟨List.mem_cons_of_mem a hst.1, hst.2⟩]
    · rw [if_neg hst]
      by_cases hsa : s = a
      · subst hsa
        cases hq : stock_quote_result net s with
        | none => simp [hq]
        | some entry => simp [hq, lookup_setKey]
      · have hcond : ¬(s ∈ a :: t ∧ (stock_quote_result net s).isSome) := by
          rintro ⟨hm, hsome⟩
          rcases List.mem_cons.mp hm with h | h
          · exact hsa h
          · exact hst ⟨h, hsome⟩
        rw [if_neg hcond]
        cases hq : stock_quote_result net a with
        | none => simp [hq]
        | some entry => simp [hq, lookup_setKey, hsa]

theorem lookup_fetch_current_stock_prices (k : String)
    (net : String → Except Unit FinnhubQuoteResp) (symbols : List String)
    (s : String) :
    List.lookup s (fetch_current_stock_prices (some k) net symbols) =
      if s ∈ stockQuerySymbols symbols ∧ (stock_quote_result net s).isSome
      then stock_quote_result net s else none := by
  unfold fetch_current_stock_prices
  rw [lookup_stock_fold]
  simp

/-- A Finnhub oracle succeeding for every symbol with price 190 and previous
close 180. -/
def finnhub_net_base : String → Except Unit FinnhubQuoteResp :=
  fun _ => .ok ⟨some 190, some 180, none⟩

/-- The oracle `finnhub_net_base` degraded so that ZZZZINVALID fails upstream. -/
def finnhub_net_example : String → Except Unit FinnhubQuoteResp :=
  fun s => if s = "ZZZZINVALID" then .error () else finnhub_net_base s

/-- C6: with a key configured, the mapping `fetch_current_stock_prices`
returns is exactly the per-symbol outcomes of the symbols that succeeded
(first conjunct), so a per-symbol failure cannot remove or alter any other
symbol's entry (second conjunct: degrading one symbol's upstream leaves every
other lookup unchanged); concretely, with ZZZZINVALID failing upstream the
batch ["AAPL","ZZZZINVALID"] yields a mapping containing only AAPL.  The
embedding is total, so no input raises. -/
theorem fetch_stock_partial_batch :
    (∀ (k : String) (net : String → Except Unit FinnhubQuoteResp)
        (symbols : List String) (s : String),
        List.lookup s (fetch_current_stock_prices (some k) net symbols) =
          if s ∈ stockQuerySymbols symbols ∧ (stock_quote_result net s).isSome
          then stock_quote_result net s else none) ∧
    (∀ (k : String) (net net' : String → Except Unit FinnhubQuoteResp)
        (symbols : List String) (bad s : String),
        (∀ t, t ≠ bad → net' t = net t) → s ≠ bad →
        List.lookup s (fetch_current_stock_prices (some k) net' symbols) =
          List.lookup s (fetch_current_stock_prices (some k) net symbols)) ∧
    (fetch_current_stock_prices (some "key") finnhub_net_example
        ["AAPL", "ZZZZINVALID"] =
      [("AAPL", ⟨190, some (50/9), none, some 180⟩)]) := by
  refine ⟨lookup_fetch_current_stock_prices, ?_, ?_⟩
  · intro k net net' symbols bad s hagree hs
    have hsq : stock_quote_result net' s = stock_quote_result net s := by
      unfold stock_quote_result
      rw [hagree s hs]
    rw [lookup_fetch_current_stock_prices, lookup_fetch_current_stock_prices,
      hsq]
  · have h1 : stockQuerySymbols ["AAPL", "ZZZZINVALID"] =
        ["AAPL", "ZZZZINVALID"] := by decide
    have hA : finnhub_net_example "AAPL" =
        Except.ok ⟨some 190, some 180, none⟩ := rfl
    have hZ : finnhub_net_example "ZZZZINVALID" = Except.error () := rfl
    unfold fetch_current_stock_prices
    rw [h1]
    simp only [List.foldl, hA, hZ]
    norm_num [finnhub_quote_entry, setKey]

/-- Witness for `fetch_stock_partial_batch`: degrading ZZZZINVALID leaves the
AAPL entry unchanged. -/
theorem fetch_stock_partial_batch_witness :
    List.lookup "AAPL" (fetch_current_stock_prices (some "key")
        finnhub_net_example ["AAPL", "ZZZZINVALID"]) =
      List.lookup "AAPL" (fetch_current_stock_prices (some "key")
        finnhub_net_base ["AAPL", "ZZZZINVALID"]) :=
  fetch_stock_partial_batch.2.1 "key" finnhub_net_base finnhub_net_example
    ["AAPL", "ZZZZINVALID"] "ZZZZINVALID" "AAPL"
    (fun t ht => by simp [finnhub_net_example, ht]) (by decide)

/-- C1: the stock 24h-series reconstruction is a strict ordered fallback
cascade (views.py 298-370): a non-empty candle series is returned as-is with
the history store never queried and the quote stage never run; with an empty
candle series the history store is always queried, and a non-empty history
result is returned with the quote stage skipped; only when both are empty
(history empty or failing) does the quote-interpolation stage run and
determine the result. -/
theorem stock_series_cascade :
    (∀ (api : List ℚ) (db : Except Unit (List ℚ))
        (pdata : Option StockQuoteData), api ≠ [] →
        asset_catalog_stock_series api db pdata = ⟨api, false, false⟩) ∧
    (∀ (hist : List ℚ) (pdata : Option StockQuoteData), hist ≠ [] →
        asset_catalog_stock_series [] (.ok hist) pdata = ⟨hist, true, false⟩) ∧
    (∀ (pdata : Option StockQuoteData),
        asset_catalog_stock_series [] (.error ()) pdata =
          ⟨quote_fallback_series (pdata.map (·.price))
            (pdata.bind (·.prev_close)) (pdata.bind (·.percent_change)),
            true, true⟩ ∧
        asset_catalog_stock_series [] (.ok []) pdata =
          ⟨quote_fallback_series (pdata.map (·.price))
            (pdata.bind (·.prev_close)) (pdata.bind (·.percent_change)),
            true, true⟩) := by
  refine ⟨?_, ?_, ?_⟩
  · intro api db pdata hne
    have hb : api.isEmpty = false := by
      cases api
      · exact absurd rfl hne
      · rfl
    unfold asset_catalog_stock_series
    simp [hb]
  · intro hist pdata hne
    have hb : hist.isEmpty = false := by
      cases hist
      · exact absurd rfl hne
      · rfl
    unfold asset_catalog_stock_series
    simp [hb]
  · intro pdata
    constructor <;> rfl

/-- Witness for `stock_series_cascade`: a non-empty candle series short-
circuits the cascade. -/
theorem stock_series_cascade_witness :
    asset_catalog_stock_series [5] (.error ()) none = ⟨[5], false, false⟩ :=
  stock_series_cascade.1 [5] (.error ()) none (by simp)

/-- C5: rendering the single-point series `[p]` produces exactly the same
drawing as rendering `[p, p]`, for every price, width, height and default
stroke color (utils.py 374-376 duplicates a single point before drawing). -/
theorem sparkline_single_point_duplicate (p w h : ℚ) (s : String) :
    sparkline_svg_from_prices [p] w h s =
      sparkline_svg_from_prices [p, p] w h s := by
  simp [sparkline_svg_from_prices, min_self, max_self, sub_self, zero_div]

/-- C4: for every non-empty series of non-negative prices (the data-model
invariant for price series), the renderer picks the stroke color by comparing
the last point with the first: a zero first point yields the neutral color
without raising (utils.py 389 guards the division), a strictly greater last
point the up color, a strictly smaller one the down color, and equal
endpoints the neutral color; in particular [100,105] is up, [105,100] is
down, [100,100] is neutral. -/
theorem sparkline_color_rule :
    (∀ (p0 : ℚ) (rest : List ℚ) (w h : ℚ) (s : String), 0 ≤ p0 →
        (sparkline_svg_from_prices (p0 :: rest) w h s).color? =
          some (if p0 = 0 then flatColor
            else if p0 < (p0 :: rest).getLastD p0 then upColor
            else if (p0 :: rest).getLastD p0 < p0 then downColor
            else flatColor)) ∧
    (sparkline_svg_from_prices [100, 105] 120 28 upColor).color? =
      some upColor ∧
    (sparkline_svg_from_prices [105, 100] 120 28 upColor).color? =
      some downColor ∧
    (sparkline_svg_from_prices [100, 100] 120 28 upColor).color? =
      some flatColor := by
  have hrule : ∀ (p0 : ℚ) (rest : List ℚ) (w h : ℚ) (s : String), 0 ≤ p0 →
      (sparkline_svg_from_prices (p0 :: rest) w h s).color? =
        some (if p0 = 0 then flatColor
          else if p0 < (p0 :: rest).getLastD p0 then upColor
          else if (p0 :: rest).getLastD p0 < p0 then downColor
          else flatColor) := by
    intro p0 rest w h s hnn
    cases rest with
    | nil =>
      simp [sparkline_svg_from_prices, Sparkline.color?, sub_self, zero_div,
        lt_irrefl, List.getLastD]
    | cons p1 rs =>
      by_cases hz : p0 = 0
      · simp [sparkline_svg_from_prices, Sparkline.color?, hz, lt_irrefl]
      · have hp : 0 < p0 := lt_of_le_of_ne hnn (Ne.symm hz)
        rcases lt_trichotomy p0 ((p1 :: rs).getLast?.getD p0) with hlt | heq | hgt
        · have hpos : 0 < ((p1 :: rs).getLast?.getD p0 - p0) / p0 :=
            div_pos (sub_pos.mpr hlt) hp
          simp [sparkline_svg_from_prices, Sparkline.color?, hz, hlt, hpos]
        · simp [sparkline_svg_from_prices, Sparkline.color?, hz, ← heq,
            sub_self, zero_div, lt_irrefl]
        · have hneg : ((p1 :: rs).getLast?.getD p0 - p0) / p0 < 0 :=
            div_neg_of_neg_of_pos (sub_neg.mpr hgt) hp
          simp [sparkline_svg_from_prices, Sparkline.color?, hz, hgt, hneg,
            asymm hgt, asymm hneg]
  refine ⟨hrule, ?_, ?_, ?_⟩
  · rw [hrule 100 [105] 120 28 upColor (by norm_num)]
    norm_num [List.getLastD]
  · rw [hrule 105 [100] 120 28 upColor (by norm_num)]
    norm_num [List.getLastD]
  · rw [hrule 100 [100] 120 28 upColor (by norm_num)]
    norm_num [List.getLastD]

/-- Witness for `sparkline_color_rule` at the series [100, 105]. -/
theorem sparkline_color_rule_witness :
    (sparkline_svg_from_prices (100 :: [105]) 120 28 upColor).color? =
      some (if (100 : ℚ) = 0 then flatColor
        else if (100 : ℚ) < ((100 : ℚ) :: [105]).getLastD 100 then upColor
        else if ((100 : ℚ) :: [105]).getLastD 100 < 100 then downColor
        else flatColor) :=
  sparkline_color_rule.1 100 [105] 120 28 upColor (by norm_num)

theorem enum_map_fst_apply {α β : Type} (l : List α) (f : ℕ → β) :
    l.enum.map (fun ip => f ip.1) = (List.range l.length).map f := by
  rw [← List.enum_map_fst l, List.map_map]
  rfl

theorem enum_map_fst_mul (l : List ℚ) (c : ℚ) :
    l.enum.map (fun ip => (ip.1 : ℚ) * c) =
      (List.range l.length).map (fun (i : ℕ) => (i : ℚ) * c) :=
  enum_map_fst_apply l (fun i => (i : ℚ) * c)

theorem sparkline_xs_two (p0 p1 : ℚ) (rest : List ℚ) (w h : ℚ) (s : String) :
    ((sparkline_svg_from_prices (p0 :: p1 :: rest) w h s).points?).map
        (fun pts => pts.map Prod.fst) =
      some ((List.range (rest.length + 2)).map
        (fun (i : ℕ) => (i : ℚ) * w / ((rest.length : ℚ) + 1))) := by
  have hlen : ¬((p0 :: p1 :: rest).length = 1) := by simp
  have hmax : (max 1 ((p0 :: p1 :: rest).length - 1)) = rest.length + 1 := by
    simp only [List.length_cons]
    omega
  simp [sparkline_svg_from_prices, Sparkline.points?, hlen, hmax,
    List.map_map, Function.comp_def, enum_map_fst_mul, mul_div_assoc]

/-- C9: for every series of length at least two, the rendered x-coordinates
are exactly `i * width / (n-1)` (utils.py 377-380), so the first one is
exactly 0 and the last one exactly `width`. -/
theorem sparkline_x_coordinates (p0 p1 : ℚ) (rest : List ℚ) (w h : ℚ)
    (s : String) :
    ∃ (pts : List (ℚ × ℚ)) (c : String),
      (sparkline_svg_from_prices (p0 :: p1 :: rest) w h s).body =
        some (pts, c) ∧
      pts.map Prod.fst = (List.range (rest.length + 2)).map
        (fun (i : ℕ) => (i : ℚ) * w / ((rest.length : ℚ) + 1)) ∧
      (pts.map Prod.fst).head? = some 0 ∧
      (pts.map Prod.fst).getLast? = some w := by
  have hxs := sparkline_xs_two p0 p1 rest w h s
  rcases hb : (sparkline_svg_from_prices (p0 :: p1 :: rest) w h s).body
      with _ | pc
  · rw [Sparkline.points?, hb] at hxs
    simp at hxs
  · obtain ⟨pts, c⟩ := pc
    rw [Sparkline.points?, hb] at hxs
    simp only [Option.map_some'] at hxs
    replace hxs : pts.map Prod.fst = (List.range (rest.length + 2)).map
        (fun (i : ℕ) => (i : ℚ) * w / ((rest.length : ℚ) + 1)) := by
      simpa using hxs
    refine ⟨pts, c, rfl, hxs, ?_, ?_⟩
    · rw [hxs, List.range_succ_eq_map]
      simp
    · rw [hxs, List.getLast?_map,
        show rest.length + 2 = (rest.length + 1) + 1 from rfl,
        List.range_succ, List.getLast?_concat]
      have hne : ((rest.length : ℚ) + 1) ≠ 0 := by positivity
      simp only [Option.map_some', Option.some.injEq]
      push_cast
      rw [mul_comm, mul_div_assoc, div_self hne, mul_one]

end MarketData
